import Mathlib

/-!
# Verification of the bingo server (`top.js`)

Shallow embedding of the room/card/win logic of the bingo server.  The
JavaScript server is single-threaded: every inbound WebSocket message and
every timer tick runs to completion before the next one starts, so each
message handler is modelled as a pure function from server state (rooms map,
player database, the requesting socket's `ws.cards`) to new state plus the
list of messages it sends.  Machine numbers are modelled as `Nat`/`Int`
(JavaScript numbers stay far below 2^53 here, so integer arithmetic is
exact; the one floating-point computation, `calcJackpot`, is discussed at
its definition).
-/

namespace Bingo

/-- A raw cell of a stored bingo card: either a number or the FREE marker.
In `top.js` a cell is a JS value that is a number, `"FREE"`, `null` or
`undefined`; `formatCardForClient`'s `sliceToNums` maps the latter three to
`0`, so we collapse them into one `free` constructor. -/
inductive CellVal where
  | free
  | num (n : Nat)
deriving DecidableEq, Repr, Inhabited

/-- `sliceToNums` cell normalisation from `formatCardForClient`:
`(n === "FREE" || n === null || n === undefined) ? 0 : Number(n)`. -/
def sliceToNums (v : CellVal) : Nat :=
  match v with
  | .free => 0
  | .num n => n

/-- A card formatted for the client: five labeled columns of values
(`return { B, I, N, G, O }` in `formatCardForClient`). -/
structure FmtCard where
  B : List Nat
  I : List Nat
  N : List Nat
  G : List Nat
  O : List Nat
deriving DecidableEq, Repr, Inhabited

/-- `formatCardForClient(card)` from `top.js`: slices the flat 25-element
`card.data` into five columns of five and normalises each cell with
`sliceToNums` (free cell becomes `0`). `slice(a, b)` is `drop a |>.take (b-a)`. -/
def formatCardForClient (data : List CellVal) : FmtCard :=
  { B := (data.take 5).map sliceToNums
    I := ((data.drop 5).take 5).map sliceToNums
    N := ((data.drop 10).take 5).map sliceToNums
    G := ((data.drop 15).take 5).map sliceToNums
    O := ((data.drop 20).take 5).map sliceToNums }

/-- The five columns in BINGO order (`const BINGO = ["B","I","N","G","O"]`;
iterating `card[l]` for `l of BINGO`). -/
def bingoCols (card : FmtCard) : List (List Nat) :=
  [card.B, card.I, card.N, card.G, card.O]

/-- `card[BINGO[c]]`: the column at index `c` (only ever used with `c < 5`). -/
def colOf (card : FmtCard) (c : Nat) : List Nat :=
  (bingoCols card).getD c []

/-- `isLineMarked` from `checkBingo`:
`line.every(num => num === 0 || numbersCalled.includes(num))`. -/
def isLineMarked (numbersCalled : List Nat) (line : List Nat) : Bool :=
  line.all (fun num => num == 0 || numbersCalled.contains num)

/-- The row-`r` line, `BINGO.map(l => card[l][row])`.  The indexing
`card[l][row]` is total in JS; columns produced by `formatCardForClient`
have length 5 and `row < 5`, so `getD row 0` agrees with it there. -/
def rowLine (card : FmtCard) (r : Nat) : List Nat :=
  (bingoCols card).map (fun l => l.getD r 0)

/-- The main diagonal, `BINGO.map((l, i) => card[l][i])`. -/
def diagLine1 (card : FmtCard) : List Nat :=
  (List.range 5).map (fun i => (colOf card i).getD i 0)

/-- The anti-diagonal, `BINGO.map((l, i) => card[BINGO[4 - i]][i])`. -/
def diagLine2 (card : FmtCard) : List Nat :=
  (List.range 5).map (fun i => (colOf card (4 - i)).getD i 0)

/-- `checkBingo(card, numbersCalled)` from `top.js`: true iff one of the 5
columns, 5 rows or 2 diagonals is fully marked. -/
def checkBingo (card : FmtCard) (numbersCalled : List Nat) : Bool :=
  (bingoCols card).any (isLineMarked numbersCalled)
  || (List.range 5).any (fun row => isLineMarked numbersCalled (rowLine card row))
  || isLineMarked numbersCalled (diagLine1 card)
  || isLineMarked numbersCalled (diagLine2 card)

/-- `extractWinningPattern(card, numbersCalled)` from `top.js`: scans the 5
columns, then the 5 rows, then the two diagonals, and returns the first
fully marked line's `[row, col]` coordinates, or `null` (here `none`).
Column coordinates come from `colNums.map((n, r) => [r, c])`, i.e. one pair
per column entry. -/
def extractWinningPattern (card : FmtCard) (numbersCalled : List Nat) :
    Option (List (Nat × Nat)) :=
  match (List.range 5).find? (fun c => isLineMarked numbersCalled (colOf card c)) with
  | some c => some (((colOf card c).enum).map (fun p => (p.1, c)))
  | none =>
    match (List.range 5).find? (fun r => isLineMarked numbersCalled (rowLine card r)) with
    | some r => some ((List.range 5).map (fun c => (r, c)))
    | none =>
      if isLineMarked numbersCalled (diagLine1 card) then
        some ((List.range 5).map (fun i => (i, i)))
      else if isLineMarked numbersCalled (diagLine2 card) then
        some ((List.range 5).map (fun i => (i, 4 - i)))
      else none

/-! ## Server state -/

/-- A card in a room's pool (`room.cards` entries created in `loadRooms`:
`{ id: idx + 1, data, takenBy: null }`). -/
structure Card where
  id : Nat
  data : List CellVal
  takenBy : Option String
deriving DecidableEq, Repr, Inhabited

/-- A connected player socket as far as room logic sees it: the `phone`
attached by `join_room`/`get_player_data`, and `ws.cards`, the formatted
cards stored on the socket by `select_card`/`start_game`. -/
structure PlayerSession where
  phone : String
  cards : List FmtCard
deriving DecidableEq, Repr, Inhabited

/-- An in-memory room (`rooms[roomId]` in `top.js`).  `countdown` models
whether `room.countdown` holds a live interval (truthy) or is `null`;
`gameStarted` likewise tracks `room.gameStarted`, which in the source is
set/cleared exactly together with creating/clearing `room.gameInterval`.
Fields `jackpot`, `countdownTime` and `currentCountdown` (timer display
bookkeeping) are not consulted by any modelled handler and are omitted. -/
structure Room where
  players : List PlayerSession
  cards : List Card
  gameStarted : Bool
  numbersCalled : List Nat
  cost : Nat
  countdown : Bool
  playerCards : List (String × List Card)
deriving DecidableEq, Repr, Inhabited

/-- A persisted player record (`db.data.players` entries; `username` and
`gamesPlayed` are never consulted by the modelled handlers). -/
structure DBPlayer where
  phone : String
  balance : Int
  wins : Nat
deriving DecidableEq, Repr, Inhabited

/-- One line of the `room_status_update` payload built by
`updateRoomStatus`. -/
structure RoomStatus where
  playersCount : Nat
  jackpot : Nat
  cost : Nat
  gameStarted : Bool
  calledNumbersCount : Nat
deriving DecidableEq, Repr, Inhabited

/-- Messages the modelled handlers send (the `type` tags of `top.js`
payloads; fields not needed by any claim are dropped). -/
inductive SMsg where
  | cardRejected (reason : String)
  | cardSelected (roomId : String) (cardId : Nat) (phone : String)
  | cardTaken (roomId : String) (cardId : Nat) (phone : String)
  | invalidBingo
  | bingoWin (winnerPhone : String) (winningCard : FmtCard)
      (winningPattern : Option (List (Nat × Nat)))
  | gameEnd
  | errorMsg (message : String)
  | balanceUpdate (newBalance : Int)
  | showCards (phase : String) (roomId : String) (cards : List FmtCard)
  | numberCalled (number : Nat) (calledNumbers : List Nat)
  | roomStatusUpdate (status : List (String × RoomStatus))
deriving DecidableEq, Repr, Inhabited

/-- Where a message goes.  `reply` is `ws.send` to the requesting socket;
`toRoom` is delivery to each socket in `room.players` (the source skips
sockets whose `readyState` is not OPEN — delivery, not content, so it is
abstracted here); `toAll`/`toPhone` are `broadcastToAll`/`wss.clients`
style sends. -/
inductive Output where
  | reply (m : SMsg)
  | toRoom (roomId : String) (m : SMsg)
  | toPhone (phone : String) (m : SMsg)
  | toAll (m : SMsg)
deriving DecidableEq, Repr, Inhabited

/-- The rooms map `rooms` (a JS object keyed by room id). -/
abbrev Rooms := List (String × Room)

/-- Replace the first element satisfying `p` by its image under `f`,
leaving the rest unchanged: this is the effect of a JS
`list.find(p)` followed by mutation of the found object. -/
def mapFirst (p : α → Bool) (f : α → α) : List α → List α
  | [] => []
  | x :: xs => if p x then f x :: xs else x :: mapFirst p f xs

/-- `rooms[roomId]` lookup. -/
def findRoom (rooms : Rooms) (roomId : String) : Option Room :=
  (rooms.find? (fun e => e.1 == roomId)).map (fun e => e.2)

/-- Write back a mutated room object under its id. -/
def updateRoom (rooms : Rooms) (roomId : String) (room : Room) : Rooms :=
  mapFirst (fun e => e.1 == roomId) (fun e => (e.1, room)) rooms

/-- `calcJackpot(room)` from `top.js`:
`Math.floor(room.players.length * room.cost * 0.9)`.  The source computes
in binary floating point; for every product `room.players.length * room.cost`
below `10^14` the double computation of `x * 0.9` rounds to a value whose
floor equals `⌊9x/10⌋` (the representation error of `0.9` times `x` is far
below the distance to the nearest integer boundary), so the exact
`Nat`-division form is used. -/
def calcJackpot (room : Room) : Nat :=
  room.players.length * room.cost * 9 / 10

/-- Number of cards in the room currently held by `phone`
(`room.cards.filter(c => c.takenBy === phone)`). -/
def countHeld (room : Room) (phone : String) : Nat :=
  (room.cards.filter (fun c => c.takenBy == some phone)).length

/-- `updateRoomStatus()` from `top.js`: broadcast a per-room summary to all
connected clients. -/
def updateRoomStatus (rooms : Rooms) : Output :=
  .toAll (.roomStatusUpdate (rooms.map (fun e =>
    (e.1, { playersCount := e.2.players.length
            jackpot := calcJackpot e.2
            cost := e.2.cost
            gameStarted := e.2.gameStarted
            calledNumbersCount := e.2.numbersCalled.length }))))

/-- `room.playerCards[phone].push(card)` (creating the entry if absent). -/
def pushPlayerCard (pc : List (String × List Card)) (phone : String) (card : Card) :
    List (String × List Card) :=
  match pc.find? (fun e => e.1 == phone) with
  | some _ => mapFirst (fun e => e.1 == phone) (fun e => (e.1, e.2 ++ [card])) pc
  | none => pc ++ [(phone, [card])]

/-- `room.playerCards[phone] = cards` (JS object key assignment: overwrite
the entry if present, create it otherwise). -/
def setAssoc (pc : List (String × List Card)) (phone : String) (cards : List Card) :
    List (String × List Card) :=
  if (pc.find? (fun e => e.1 == phone)).isSome then
    mapFirst (fun e => e.1 == phone) (fun e => (e.1, cards)) pc
  else pc ++ [(phone, cards)]

/-! ## Message handlers -/

/-- The `select_card` message handler of `top.js` (the requesting socket's
`ws.cards` list is passed in and returned, since the handler appends to it).
Branches, in source order: missing room → silent `break` (no message at
all); card id not in the pool → `card_rejected "Card not found"`; card
taken by a different phone → `card_rejected "Already taken"`; requester
already holds 4 cards → `card_rejected "Max 4 cards reached"`; otherwise
assign `card.takenBy = phone`, push the formatted card onto `ws.cards` and
`room.playerCards[phone]`, confirm to the requester, broadcast `card_taken`
and the room status. -/
def handleSelectCard (rooms : Rooms) (wsCards : List FmtCard)
    (roomId : String) (cardId : Nat) (phone : String) :
    Rooms × List FmtCard × List Output :=
  match findRoom rooms roomId with
  | none => (rooms, wsCards, [])
  | some room =>
    match room.cards.find? (fun c => c.id == cardId) with
    | none => (rooms, wsCards, [.reply (.cardRejected "Card not found")])
    | some card =>
      if card.takenBy != none && card.takenBy != some phone then
        (rooms, wsCards, [.reply (.cardRejected "Already taken")])
      else if 4 ≤ countHeld room phone then
        (rooms, wsCards, [.reply (.cardRejected "Max 4 cards reached")])
      else
        let formatted := formatCardForClient card.data
        let takenCard : Card := { card with takenBy := some phone }
        let room2 : Room :=
          { room with
            cards := mapFirst (fun c => c.id == cardId)
              (fun c => { c with takenBy := some phone }) room.cards
            playerCards := pushPlayerCard room.playerCards phone takenCard }
        let rooms2 := updateRoom rooms roomId room2
        (rooms2, wsCards ++ [formatted],
          [.reply (.cardSelected roomId cardId phone),
           .toRoom roomId (.cardTaken roomId cardId phone),
           updateRoomStatus rooms2])

/-- The `claim_bingo` message handler of `top.js`.  Branches, in source
order: missing room → silent `return`; claiming phone not found among the
room's sockets, or its `ws.cards` empty → `invalid_bingo`; otherwise scan
the player's formatted cards in acquisition order for the first one passing
`checkBingo` against `room.numbersCalled` — none → `invalid_bingo`; found →
credit `calcJackpot` and a win to the claimant's DB record (silently skipped
if the phone has no DB record), broadcast `bingo_win` and `game_end` to the
room, clear the game interval (`gameStarted := false`), clear
`numbersCalled`, and push the room status.  Card holders (`takenBy`) are
NOT touched on this path. -/
def handleClaimBingo (rooms : Rooms) (db : List DBPlayer)
    (roomId : String) (phone : String) :
    Rooms × List DBPlayer × List Output :=
  match findRoom rooms roomId with
  | none => (rooms, db, [])
  | some room =>
    match room.players.find? (fun p => p.phone == phone) with
    | none => (rooms, db, [.reply .invalidBingo])
    | some player =>
      if player.cards.isEmpty then (rooms, db, [.reply .invalidBingo])
      else
        match player.cards.find? (fun c => checkBingo c room.numbersCalled) with
        | none => (rooms, db, [.reply .invalidBingo])
        | some winningCard =>
          let winningPattern := extractWinningPattern winningCard room.numbersCalled
          let jackpot := calcJackpot room
          let db2 := mapFirst (fun u => u.phone == phone)
            (fun u => { u with balance := u.balance + jackpot, wins := u.wins + 1 }) db
          let room2 : Room := { room with gameStarted := false, numbersCalled := [] }
          let rooms2 := updateRoom rooms roomId room2
          (rooms2, db2,
            [.toRoom roomId (.bingoWin phone winningCard winningPattern),
             .toRoom roomId .gameEnd,
             updateRoomStatus rooms2])

/-- `startRoomCountdown(roomId)` from `top.js`, restricted to its
synchronous part: the re-entrancy guard (`if (room.countdown) return`),
creation of the countdown interval (modelled as `countdown := true`), and
the immediate review-phase push that stores each room member's held cards
(formatted) on their socket and sends them.  The interval's per-second tick
body (countdown broadcasts, and on reaching zero clearing holders and
calling `startGame`) is timer-driven and not needed by any claim. -/
def startRoomCountdown (rooms : Rooms) (roomId : String) :
    Rooms × List Output :=
  match findRoom rooms roomId with
  | none => (rooms, [])
  | some room =>
    if room.countdown then (rooms, [])
    else
      let players2 := room.players.map (fun ws =>
        { ws with cards :=
            ((room.cards.filter (fun c => c.takenBy == some ws.phone)).map
              (fun c => formatCardForClient c.data)) })
      let room2 : Room := { room with countdown := true, players := players2 }
      (updateRoom rooms roomId room2,
        players2.map (fun ws => .toPhone ws.phone (.showCards "review" roomId ws.cards)))

/-- The `start_game` message handler of `top.js`.  Branches, in source
order: missing room → silent `return`; requester holds no card
(`takenBy === phone` filter empty) → error `"No cards selected"`; if the
phone has a DB record: sufficient balance → debit the room cost and send
`balance_update`, insufficient → error `"Insufficient balance to start
game"` and `return` with nothing else changed (a missing DB record skips
the debit entirely); then store the formatted held cards on the socket and
in `room.playerCards`, send them as the game-phase `show_cards`, and if
neither a game nor a countdown is running, start the countdown. -/
def handleStartGame (rooms : Rooms) (db : List DBPlayer) (wsCards : List FmtCard)
    (roomId : String) (phone : String) :
    Rooms × List DBPlayer × List FmtCard × List Output :=
  match findRoom rooms roomId with
  | none => (rooms, db, wsCards, [])
  | some room =>
    let playerCards := room.cards.filter (fun c => c.takenBy == some phone)
    if playerCards.isEmpty then
      (rooms, db, wsCards, [.reply (.errorMsg "No cards selected")])
    else
      let debited : Option (List DBPlayer × List Output) :=
        match db.find? (fun u => u.phone == phone) with
        | some user =>
          if (room.cost : Int) ≤ user.balance then
            some (mapFirst (fun u => u.phone == phone)
                (fun u => { u with balance := u.balance - room.cost }) db,
              [Output.reply (.balanceUpdate (user.balance - room.cost))])
          else none
        | none => some (db, [])
      match debited with
      | none =>
        (rooms, db, wsCards, [.reply (.errorMsg "Insufficient balance to start game")])
      | some (db2, debitOuts) =>
        let wsCards2 := playerCards.map (fun c => formatCardForClient c.data)
        let room2 : Room :=
          { room with playerCards := setAssoc room.playerCards phone playerCards }
        let rooms2 := updateRoom rooms roomId room2
        let showOut : Output := .reply (.showCards "game" roomId wsCards2)
        if !room.gameStarted && !room.countdown then
          let started := startRoomCountdown rooms2 roomId
          (started.1, db2, wsCards2, debitOuts ++ [showOut] ++ started.2)
        else
          (rooms2, db2, wsCards2, debitOuts ++ [showOut])

/-! ## Game loop (`startGame` and its interval) -/

/-- Remove the element at index `i`, returning it and the remainder: the
effect of `availableNumbers.splice(i, 1)[0]`. -/
def spliceAt : List Nat → Nat → Option (Nat × List Nat)
  | [], _ => none
  | x :: xs, 0 => some (x, xs)
  | x :: xs, n + 1 =>
    match spliceAt xs n with
    | some (y, ys) => some (y, x :: ys)
    | none => none

/-- `startGame(roomId)` from `top.js`, synchronous part: the guard
(`if (!room || room.gameStarted) return`), then `gameStarted = true`,
`numbersCalled = []` and the fresh draw pool
`Array.from({length: 75}, (_, i) => i + 1)`.  Returns the mutated room and
the interval's closure state (the available-numbers pool). -/
def startGame (room : Room) : Room × List Nat :=
  if room.gameStarted then (room, [])
  else ({ room with gameStarted := true, numbersCalled := [] },
    (List.range 75).map (fun i => i + 1))

/-- One firing of the `startGame` interval callback for room `roomId` with
closure state `available`; `rand` supplies the random draw
(`Math.floor(Math.random() * len)` is modelled as `rand % len`).  If the
pool is empty or the room has no connected players: clear the interval
(`gameStarted := false`), clear every card's `takenBy`, and send
`game_end` to the room.  Otherwise splice out one number, append it to
`numbersCalled` and broadcast it.  The interval exists exactly while
`gameStarted` is true (they are set and cleared together in the source), so
a firing with `gameStarted = false` cannot occur and is modelled as a
no-op. -/
def gameTick (roomId : String) (room : Room) (available : List Nat) (rand : Nat) :
    Room × List Nat × List Output :=
  if !room.gameStarted then (room, available, [])
  else if available.isEmpty || room.players.isEmpty then
    let room2 : Room :=
      { room with
        gameStarted := false
        cards := room.cards.map (fun c => { c with takenBy := none }) }
    (room2, available, [.toRoom roomId .gameEnd])
  else
    match spliceAt available (rand % available.length) with
    | some (num, rest) =>
      ({ room with numbersCalled := room.numbersCalled ++ [num] }, rest,
        [.toRoom roomId (.numberCalled num (room.numbersCalled ++ [num]))])
    | none => (room, available, [])

/-- Iterate `gameTick` over a list of random draws. -/
def runTicks (roomId : String) : Room × List Nat → List Nat → Room × List Nat
  | st, [] => st
  | st, r :: rs =>
    let t := gameTick roomId st.1 st.2 r
    runTicks roomId (t.1, t.2.1) rs

/-! ## Operations that touch card holders (for the 4-card-cap invariant) -/

/-- The operations of `top.js` that write a card's `takenBy` field: a
`select_card` request, and the holder-clearing resets (run when the
countdown reaches zero, and in the game interval's termination branch). -/
inductive RoomOp where
  | select (roomId : String) (cardId : Nat) (phone : String)
  | resetHolders (roomId : String)
deriving DecidableEq, Repr

/-- Apply one holder-affecting operation to the rooms map. -/
def applyOp (rooms : Rooms) : RoomOp → Rooms
  | .select roomId cardId phone => (handleSelectCard rooms [] roomId cardId phone).1
  | .resetHolders roomId =>
    match findRoom rooms roomId with
    | none => rooms
    | some room =>
      updateRoom rooms roomId
        { room with cards := room.cards.map (fun c => { c with takenBy := none }) }

/-! ## Well-formed cards

The deck is generated once by `generateBingoCard` (also the fixed-card
generator script): column B draws 5 distinct numbers from 1–15, I from
16–30, N from 31–45, G from 46–60, O from 61–75, and then the center cell
(flat index 12, i.e. N's middle entry) is overwritten with `0`.  The
following predicates state exactly that shape for a formatted card. -/

/-- A free-cell-less column: 5 distinct values in `[lo, hi]`. -/
def WFcol (l : List Nat) (lo hi : Nat) : Prop :=
  l.length = 5 ∧ l.Nodup ∧ ∀ n ∈ l, lo ≤ n ∧ n ≤ hi

/-- The N column: 5 distinct values, the middle one `0` (the free cell),
the rest in `[31, 45]`. -/
def WFNcol (l : List Nat) : Prop :=
  l.length = 5 ∧ l.Nodup ∧ l.getD 2 0 = 0 ∧ ∀ n ∈ l, n = 0 ∨ (31 ≤ n ∧ n ≤ 45)

/-- A formatted card as produced from the generated deck. -/
def WellFormedFmt (card : FmtCard) : Prop :=
  WFcol card.B 1 15 ∧ WFcol card.I 16 30 ∧ WFNcol card.N ∧
    WFcol card.G 46 60 ∧ WFcol card.O 61 75

instance (l : List Nat) (lo hi : Nat) : Decidable (WFcol l lo hi) := by
  unfold WFcol; infer_instance

instance (l : List Nat) : Decidable (WFNcol l) := by
  unfold WFNcol; infer_instance

instance (card : FmtCard) : Decidable (WellFormedFmt card) := by
  unfold WellFormedFmt; infer_instance

/-! ## Concrete sample data (used by the witness theorems) -/

/-- A sample well-formed formatted card whose B column is `1..5`. -/
def sampleCard : FmtCard :=
  { B := [1, 2, 3, 4, 5]
    I := [16, 17, 18, 19, 20]
    N := [31, 32, 0, 34, 35]
    G := [46, 47, 48, 49, 50]
    O := [61, 62, 63, 64, 65] }

/-- A second well-formed sample card (its B column is `11..15`). -/
def sampleCard2 : FmtCard :=
  { B := [11, 12, 13, 14, 15]
    I := [26, 27, 28, 29, 30]
    N := [41, 42, 0, 44, 45]
    G := [56, 57, 58, 59, 60]
    O := [71, 72, 73, 74, 75] }

/-- Flat stored data whose formatting yields `sampleCard`. -/
def sampleData : List CellVal :=
  [.num 1, .num 2, .num 3, .num 4, .num 5,
   .num 16, .num 17, .num 18, .num 19, .num 20,
   .num 31, .num 32, .free, .num 34, .num 35,
   .num 46, .num 47, .num 48, .num 49, .num 50,
   .num 61, .num 62, .num 63, .num 64, .num 65]

/-- A concrete active two-player room: `"A"` and `"B"` each hold one
formatted card, the pool card with id 1 is held by `"p"`, and the called
numbers complete `sampleCard`'s B column and `sampleCard2`'s B column. -/
def demoRoom : Room :=
  { players := [{ phone := "A", cards := [sampleCard] },
                { phone := "B", cards := [sampleCard2] }]
    cards := [{ id := 1, data := sampleData, takenBy := some "p" }]
    gameStarted := true
    numbersCalled := [1, 2, 3, 4, 5, 11, 12, 13, 14, 15]
    cost := 10
    countdown := false
    playerCards := [] }

def demoRooms : Rooms := [("r", demoRoom)]

def demoDb : List DBPlayer := [{ phone := "A", balance := 100, wins := 0 }]

/-- A concrete idle room whose countdown is running: one connected player
`"p"` who holds the single pool card, with 100 balance in `demoDbP`. -/
def demoCountdownRoom : Room :=
  { players := [{ phone := "p", cards := [] }]
    cards := [{ id := 1, data := sampleData, takenBy := some "p" }]
    gameStarted := false
    numbersCalled := []
    cost := 10
    countdown := true
    playerCards := [] }

def demoCountdownRooms : Rooms := [("r", demoCountdownRoom)]

def demoDbP : List DBPlayer := [{ phone := "p", balance := 100, wins := 0 }]

/-- A concrete selection-phase room: card 1 free, card 2 held by `"q"`. -/
def demoSelRoom : Room :=
  { players := [{ phone := "p", cards := [] }]
    cards := [{ id := 1, data := sampleData, takenBy := none },
              { id := 2, data := sampleData, takenBy := some "q" }]
    gameStarted := false
    numbersCalled := []
    cost := 10
    countdown := false
    playerCards := [] }

def demoSelRooms : Rooms := [("r", demoSelRoom)]

/-- `demoCountdownRoom` with no countdown running (fully idle). -/
def demoIdleRoom : Room := { demoCountdownRoom with countdown := false }

def demoIdleRooms : Rooms := [("r", demoIdleRoom)]

/-! ## Generic lemmas about the list helpers -/

theorem mapFirst_of_find?_none {p : α → Bool} {f : α → α} {l : List α}
    (h : l.find? p = none) : mapFirst p f l = l := by
  induction l with
  | nil => rfl
  | cons x xs ih =>
    rw [List.find?_cons] at h
    cases hx : p x with
    | true => rw [hx] at h; simp at h
    | false =>
      rw [hx] at h
      have h2 : xs.find? p = none := h
      simp [mapFirst, hx, ih h2]

theorem find?_mapFirst_self {p : α → Bool} {f : α → α} {l : List α} {x : α}
    (h : l.find? p = some x) (hf : p (f x) = true) :
    (mapFirst p f l).find? p = some (f x) := by
  induction l with
  | nil => simp at h
  | cons y ys ih =>
    rw [List.find?_cons] at h
    cases hy : p y with
    | true =>
      simp [hy] at h
      subst h
      simp [mapFirst, hy, List.find?_cons, hf]
    | false =>
      simp [hy] at h
      simp [mapFirst, hy, List.find?_cons, ih h]

theorem mem_mapFirst {p : α → Bool} {f : α → α} {l : List α} {y : α}
    (h : y ∈ mapFirst p f l) : y ∈ l ∨ ∃ x ∈ l, p x = true ∧ y = f x := by
  induction l with
  | nil => simp [mapFirst] at h
  | cons z zs ih =>
    rw [mapFirst] at h
    by_cases hz : p z = true
    · simp [hz] at h
      rcases h with h | h
      · exact Or.inr ⟨z, List.mem_cons_self z zs, hz, h⟩
      · exact Or.inl (List.mem_cons_of_mem z h)
    · simp [Bool.eq_false_iff.mpr hz] at h
      rcases h with h | h
      · exact Or.inl (h ▸ List.mem_cons_self z zs)
      · rcases ih h with h2 | ⟨x, hx, hpx, hyx⟩
        · exact Or.inl (List.mem_cons_of_mem z h2)
        · exact Or.inr ⟨x, List.mem_cons_of_mem z hx, hpx, hyx⟩

theorem mapFirst_decomp {p : α → Bool} {f : α → α} {l : List α} {x : α}
    (h : l.find? p = some x) :
    ∃ l1 l2, l = l1 ++ x :: l2 ∧ (∀ y ∈ l1, p y = false) ∧
      mapFirst p f l = l1 ++ f x :: l2 := by
  induction l with
  | nil => simp at h
  | cons y ys ih =>
    rw [List.find?_cons] at h
    cases hy : p y with
    | true =>
      simp [hy] at h
      subst h
      exact ⟨[], ys, by simp, by simp, by simp [mapFirst, hy]⟩
    | false =>
      simp [hy] at h
      rcases ih h with ⟨l1, l2, hl, hl1, hm⟩
      exact ⟨y :: l1, l2, by simp [hl], by
        intro z hz
        rcases List.mem_cons.mp hz with rfl | hz2
        · exact hy
        · exact hl1 z hz2, by simp [mapFirst, hy, hm]⟩

theorem findRoom_mem {rooms : Rooms} {roomId : String} {room : Room}
    (h : findRoom rooms roomId = some room) : ∃ e ∈ rooms, e.2 = room := by
  unfold findRoom at h
  cases hf : rooms.find? (fun e => e.1 == roomId) with
  | none => rw [hf] at h; simp at h
  | some e =>
    rw [hf] at h
    simp at h
    exact ⟨e, List.mem_of_find?_eq_some hf, h⟩

theorem findRoom_updateRoom {rooms : Rooms} {roomId : String} {room room2 : Room}
    (h : findRoom rooms roomId = some room) :
    findRoom (updateRoom rooms roomId room2) roomId = some room2 := by
  unfold findRoom at h ⊢
  unfold updateRoom
  cases hf : rooms.find? (fun e => e.1 == roomId) with
  | none => rw [hf] at h; simp at h
  | some e =>
    have he : (fun q : String × Room => q.1 == roomId) (e.1, room2) = true := by
      have := List.find?_some hf
      simpa using this
    rw [find?_mapFirst_self hf he]
    simp

theorem mem_updateRoom {rooms : Rooms} {roomId : String} {room2 : Room} {e : String × Room}
    (h : e ∈ updateRoom rooms roomId room2) : e ∈ rooms ∨ e.2 = room2 := by
  rcases mem_mapFirst h with h2 | ⟨x, _, _, hx⟩
  · exact Or.inl h2
  · right; rw [hx]

theorem spliceAt_perm {l : List Nat} {i : Nat} {x : Nat} {rest : List Nat}
    (h : spliceAt l i = some (x, rest)) : l.Perm (x :: rest) := by
  induction l generalizing i x rest with
  | nil => simp [spliceAt] at h
  | cons y ys ih =>
    cases i with
    | zero =>
      simp [spliceAt] at h
      rw [h.1, h.2]
    | succ n =>
      rw [spliceAt] at h
      cases hs : spliceAt ys n with
      | none => rw [hs] at h; simp at h
      | some p =>
        rw [hs] at h
        simp at h
        obtain ⟨rfl, rfl⟩ := h
        exact (List.Perm.cons y (ih hs)).trans (List.Perm.swap p.1 y p.2)

/-! ## Lemmas about the win evaluator on well-formed cards -/

theorem col_mem_bound {card : FmtCard} (hwf : WellFormedFmt card) {c : Nat} (hc : c < 5) :
    ∀ n ∈ colOf card c, (n = 0 ∧ c = 2) ∨ (15 * c + 1 ≤ n ∧ n ≤ 15 * c + 15) := by
  obtain ⟨hB, hI, hN, hG, hO⟩ := hwf
  interval_cases c
  · intro n hn; have := hB.2.2 n hn; omega
  · intro n hn; have := hI.2.2 n hn; omega
  · intro n hn; rcases hN.2.2.2 n hn with h | h
    · exact Or.inl ⟨h, rfl⟩
    · right; omega
  · intro n hn; have := hG.2.2 n hn; omega
  · intro n hn; have := hO.2.2 n hn; omega

theorem colOf_wf_length {card : FmtCard} (hwf : WellFormedFmt card) {c : Nat} (hc : c < 5) :
    (colOf card c).length = 5 := by
  obtain ⟨hB, hI, hN, hG, hO⟩ := hwf
  interval_cases c
  · exact hB.1
  · exact hI.1
  · exact hN.1
  · exact hG.1
  · exact hO.1

theorem col_nodup {card : FmtCard} (hwf : WellFormedFmt card) {c : Nat} (hc : c < 5) :
    (colOf card c).Nodup := by
  obtain ⟨hB, hI, hN, hG, hO⟩ := hwf
  interval_cases c
  · exact hB.2.1
  · exact hI.2.1
  · exact hN.2.1
  · exact hG.2.1
  · exact hO.2.1

/-- On a well-formed card every cell other than the free center is a number
in its column's range; in particular it is nonzero. -/
theorem cell_nonfree {card : FmtCard} (hwf : WellFormedFmt card) {d i : Nat}
    (hd : d < 5) (hi : i < 5) (hne : ¬(d = 2 ∧ i = 2)) :
    (colOf card d).getD i 0 ∈ colOf card d ∧ (colOf card d).getD i 0 ≠ 0 ∧
      15 * d + 1 ≤ (colOf card d).getD i 0 ∧ (colOf card d).getD i 0 ≤ 15 * d + 15 := by
  have hlen : (colOf card d).length = 5 := colOf_wf_length hwf hd
  have hi2 : i < (colOf card d).length := by omega
  have hmem : (colOf card d).getD i 0 ∈ colOf card d := by
    rw [List.getD_eq_getElem _ _ hi2]
    exact (colOf card d).getElem_mem hi2
  have hnz : (colOf card d).getD i 0 ≠ 0 := by
    rcases col_mem_bound hwf hd _ hmem with ⟨h0, rfl⟩ | hb
    · -- the cell is the free center: then `i = 2` by Nodup, contradicting `hne`
      exfalso
      have hfree : (colOf card 2).getD 2 0 = 0 := hwf.2.2.1.2.2.1
      have h22 : (2 : Nat) < (colOf card 2).length := by omega
      have hij : (colOf card 2)[i] = (colOf card 2)[2] := by
        rw [← List.getD_eq_getElem _ 0 hi2, ← List.getD_eq_getElem _ 0 h22, h0, hfree]
      exact hne ⟨rfl, (List.Nodup.getElem_inj_iff (col_nodup hwf hd)).mp hij⟩
    · omega
  rcases col_mem_bound hwf hd _ hmem with ⟨h0, _⟩ | hb
  · exact absurd h0 hnz
  · exact ⟨hmem, hnz, hb⟩

/-- A line with a nonzero cell outside the called set is not marked. -/
theorem isLineMarked_false_of {called line : List Nat} {x : Nat}
    (hx : x ∈ line) (hnz : x ≠ 0) (hnc : x ∉ called) :
    isLineMarked called line = false := by
  rw [isLineMarked, List.all_eq_false]
  exact ⟨x, hx, by simp [hnz, hnc]⟩

/-- A line all of whose nonzero cells are called is marked. -/
theorem isLineMarked_true_of {called line : List Nat}
    (h : ∀ n ∈ line, n = 0 ∨ n ∈ called) :
    isLineMarked called line = true := by
  rw [isLineMarked, List.all_eq_true]
  intro n hn
  rcases h n hn with h2 | h2 <;> simp [h2]

theorem colOf_mem_bingoCols {card : FmtCard} {c : Nat} (hc : c < 5) :
    colOf card c ∈ bingoCols card := by
  interval_cases c <;> simp [colOf, bingoCols]

/-- A marked column makes `checkBingo` true. -/
theorem checkBingo_of_col {card : FmtCard} {called : List Nat} {c : Nat} (hc : c < 5)
    (h : isLineMarked called (colOf card c) = true) : checkBingo card called = true := by
  have : (bingoCols card).any (isLineMarked called) = true :=
    List.any_eq_true.mpr ⟨colOf card c, colOf_mem_bingoCols hc, h⟩
  simp [checkBingo, this]

/-- `checkBingo` is false exactly when all 12 lines are unmarked. -/
theorem checkBingo_eq_false_iff {card : FmtCard} {called : List Nat} :
    checkBingo card called = false ↔
      (∀ c < 5, isLineMarked called (colOf card c) = false) ∧
      (∀ r < 5, isLineMarked called (rowLine card r) = false) ∧
      isLineMarked called (diagLine1 card) = false ∧
      isLineMarked called (diagLine2 card) = false := by
  constructor
  · intro h
    simp only [checkBingo, Bool.or_eq_false_iff, List.any_eq_false] at h
    obtain ⟨⟨⟨hcols, hrows⟩, hd1⟩, hd2⟩ := h
    refine ⟨?_, ?_, by simpa using hd1, by simpa using hd2⟩
    · intro c hc
      simpa using hcols (colOf card c) (colOf_mem_bingoCols hc)
    · intro r hr
      simpa using hrows r (List.mem_range.mpr hr)
  · intro ⟨hcols, hrows, hd1, hd2⟩
    simp only [checkBingo, Bool.or_eq_false_iff, List.any_eq_false]
    refine ⟨⟨⟨?_, ?_⟩, by simpa using hd1⟩, by simpa using hd2⟩
    · intro l hl
      have : l = colOf card 0 ∨ l = colOf card 1 ∨ l = colOf card 2 ∨
          l = colOf card 3 ∨ l = colOf card 4 := by
        simpa [bingoCols, colOf] using hl
      rcases this with rfl | rfl | rfl | rfl | rfl
      · simp [hcols 0 (by omega)]
      · simp [hcols 1 (by omega)]
      · simp [hcols 2 (by omega)]
      · simp [hcols 3 (by omega)]
      · simp [hcols 4 (by omega)]
    · intro r hr
      simp [hrows r (List.mem_range.mp hr)]

/-- On a well-formed card no line is marked when no numbers have been
called: every line contains a nonzero cell. -/
theorem checkBingo_nil_of_wf {card : FmtCard} (hwf : WellFormedFmt card) :
    checkBingo card [] = false := by
  rw [checkBingo_eq_false_iff]
  refine ⟨?_, ?_, ?_, ?_⟩
  · intro c hc
    obtain ⟨hmem, hnz, _⟩ := cell_nonfree hwf hc (by omega : (0 : Nat) < 5)
      (by intro h; omega)
    exact isLineMarked_false_of hmem hnz (by simp)
  · intro r hr
    obtain ⟨hmem, hnz, _⟩ := cell_nonfree hwf (by omega : (0 : Nat) < 5) hr
      (by intro h; omega)
    have hrow : (colOf card 0).getD r 0 ∈ rowLine card r := by
      simp [rowLine, bingoCols]
      exact Or.inl rfl
    exact isLineMarked_false_of hrow hnz (by simp)
  · obtain ⟨hmem, hnz, _⟩ := cell_nonfree hwf (by omega : (0 : Nat) < 5)
      (by omega : (0 : Nat) < 5) (by intro h; omega)
    have hd : (colOf card 0).getD 0 0 ∈ diagLine1 card := by
      simp [diagLine1]
      exact ⟨0, by omega, rfl⟩
    exact isLineMarked_false_of hd hnz (by simp)
  · obtain ⟨hmem, hnz, _⟩ := cell_nonfree hwf (by omega : (4 : Nat) < 5)
      (by omega : (0 : Nat) < 5) (by intro h; omega)
    have hd : (colOf card 4).getD 0 0 ∈ diagLine2 card := by
      simp [diagLine2]
      exact ⟨0, by omega, rfl⟩
    exact isLineMarked_false_of hd hnz (by simp)

/-- C5: for any (well-formed) card and any column `c` of it, a
called-numbers set containing all of the column's non-free numbers makes
`checkBingo` return true; and for the called set consisting of exactly the
column's non-free numbers, removing any one of them makes `checkBingo`
return false. -/
theorem checkBingo_column_exact (card : FmtCard) (c : Nat) (hc : c < 5)
    (hwf : WellFormedFmt card) :
    (∀ called : List Nat, (∀ n ∈ colOf card c, n ≠ 0 → n ∈ called) →
      checkBingo card called = true)
    ∧ ∀ x ∈ (colOf card c).filter (fun n => n != 0),
        checkBingo card (((colOf card c).filter (fun n => n != 0)).erase x) = false := by
  have hfilter_sub : ∀ y ∈ (colOf card c).filter (fun n => n != 0),
      y ∈ colOf card c ∧ y ≠ 0 := by
    intro y hy
    have h2 := List.mem_filter.mp hy
    exact ⟨h2.1, by simpa using h2.2⟩
  constructor
  · intro called hcall
    refine checkBingo_of_col hc (isLineMarked_true_of ?_)
    intro n hn
    by_cases hn0 : n = 0
    · exact Or.inl hn0
    · exact Or.inr (hcall n hn hn0)
  · intro x hx
    have hxc : x ∈ colOf card c ∧ x ≠ 0 := hfilter_sub x hx
    have hnodup : ((colOf card c).filter (fun n => n != 0)).Nodup :=
      (col_nodup hwf hc).filter _
    have hxnc : x ∉ ((colOf card c).filter (fun n => n != 0)).erase x :=
      hnodup.not_mem_erase
    have hcall_bound : ∀ y ∈ ((colOf card c).filter (fun n => n != 0)).erase x,
        15 * c + 1 ≤ y ∧ y ≤ 15 * c + 15 := by
      intro y hy
      have hyf := hfilter_sub y (List.erase_subset _ _ hy)
      rcases col_mem_bound hwf hc y hyf.1 with ⟨h0, _⟩ | hb
      · exact absurd h0 hyf.2
      · exact hb
    rw [checkBingo_eq_false_iff]
    refine ⟨?_, ?_, ?_, ?_⟩
    · intro d hd
      by_cases hdc : d = c
      · subst hdc
        exact isLineMarked_false_of hxc.1 hxc.2 hxnc
      · obtain ⟨hmem, hnz, hlo, hhi⟩ :=
          cell_nonfree hwf hd (show (0 : Nat) < 5 by omega) (by omega)
        refine isLineMarked_false_of hmem hnz ?_
        intro hin
        have := hcall_bound _ hin
        omega
    · intro r hr
      by_cases hc0 : c = 0
      · obtain ⟨hmem, hnz, hlo, hhi⟩ :=
          cell_nonfree hwf (show (4 : Nat) < 5 by omega) hr (by omega)
        have hm : (colOf card 4).getD r 0 ∈ rowLine card r := by
          unfold rowLine
          exact List.mem_map.mpr ⟨colOf card 4, colOf_mem_bingoCols (by omega), rfl⟩
        refine isLineMarked_false_of hm hnz ?_
        intro hin
        have := hcall_bound _ hin
        omega
      · obtain ⟨hmem, hnz, hlo, hhi⟩ :=
          cell_nonfree hwf (show (0 : Nat) < 5 by omega) hr (by omega)
        have hm : (colOf card 0).getD r 0 ∈ rowLine card r := by
          unfold rowLine
          exact List.mem_map.mpr ⟨colOf card 0, colOf_mem_bingoCols (by omega), rfl⟩
        refine isLineMarked_false_of hm hnz ?_
        intro hin
        have := hcall_bound _ hin
        omega
    · by_cases hc0 : c = 0
      · obtain ⟨hmem, hnz, hlo, hhi⟩ :=
          cell_nonfree hwf (show (4 : Nat) < 5 by omega) (show (4 : Nat) < 5 by omega)
            (by omega)
        have hm : (colOf card 4).getD 4 0 ∈ diagLine1 card := by
          unfold diagLine1
          exact List.mem_map.mpr ⟨4, List.mem_range.mpr (by omega), rfl⟩
        refine isLineMarked_false_of hm hnz ?_
        intro hin
        have := hcall_bound _ hin
        omega
      · obtain ⟨hmem, hnz, hlo, hhi⟩ :=
          cell_nonfree hwf (show (0 : Nat) < 5 by omega) (show (0 : Nat) < 5 by omega)
            (by omega)
        have hm : (colOf card 0).getD 0 0 ∈ diagLine1 card := by
          unfold diagLine1
          exact List.mem_map.mpr ⟨0, List.mem_range.mpr (by omega), rfl⟩
        refine isLineMarked_false_of hm hnz ?_
        intro hin
        have := hcall_bound _ hin
        omega
    · by_cases hc4 : c = 4
      · obtain ⟨hmem, hnz, hlo, hhi⟩ :=
          cell_nonfree hwf (show (0 : Nat) < 5 by omega) (show (4 : Nat) < 5 by omega)
            (by omega)
        have hm : (colOf card 0).getD 4 0 ∈ diagLine2 card := by
          unfold diagLine2
          exact List.mem_map.mpr ⟨4, List.mem_range.mpr (by omega), rfl⟩
        refine isLineMarked_false_of hm hnz ?_
        intro hin
        have := hcall_bound _ hin
        omega
      · obtain ⟨hmem, hnz, hlo, hhi⟩ :=
          cell_nonfree hwf (show (4 : Nat) < 5 by omega) (show (0 : Nat) < 5 by omega)
            (by omega)
        have hm : (colOf card 4).getD 0 0 ∈ diagLine2 card := by
          unfold diagLine2
          exact List.mem_map.mpr ⟨0, List.mem_range.mpr (by omega), rfl⟩
        refine isLineMarked_false_of hm hnz ?_
        intro hin
        have := hcall_bound _ hin
        omega

/-! ## `extractWinningPattern` agrees with `checkBingo` -/

theorem find?_isSome_eq_any (l : List α) (p : α → Bool) :
    (l.find? p).isSome = l.any p := by
  cases h : l.find? p with
  | some x =>
    symm
    exact List.any_eq_true.mpr ⟨x, List.mem_of_find?_eq_some h, List.find?_some h⟩
  | none =>
    simp only [Option.isSome_none]
    symm
    rw [List.any_eq_false]
    intro x hx
    simpa using List.find?_eq_none.mp h x hx

theorem colsAny_eq_rangeAny (card : FmtCard) (called : List Nat) :
    (bingoCols card).any (isLineMarked called) =
      (List.range 5).any (fun c => isLineMarked called (colOf card c)) := rfl

/-- C10: `extractWinningPattern` returns a (non-null) pattern exactly when
`checkBingo` returns true; consequently every `bingo_win` broadcast built by
the claim handler (whose winning card passed `checkBingo`) carries a
non-null winning pattern. -/
theorem extract_matches_checkBingo (card : FmtCard) (called : List Nat) :
    ((extractWinningPattern card called ≠ none) ↔ checkBingo card called = true)
    ∧ ∀ (rooms : Rooms) (db : List DBPlayer) (roomId phone rid ph : String)
        (wc : FmtCard) (wp : Option (List (Nat × Nat))),
        Output.toRoom rid (SMsg.bingoWin ph wc wp) ∈
          (handleClaimBingo rooms db roomId phone).2.2 → wp ≠ none := by
  have main : ∀ (cd : FmtCard) (cl : List Nat),
      (extractWinningPattern cd cl).isSome = checkBingo cd cl := by
    intro cd cl
    unfold extractWinningPattern
    cases hcol : (List.range 5).find? (fun c => isLineMarked cl (colOf cd c)) with
    | some c =>
      simp only [Option.isSome_some]
      have hpc : isLineMarked cl (colOf cd c) = true := by
        simpa using List.find?_some hcol
      exact (checkBingo_of_col (List.mem_range.mp (List.mem_of_find?_eq_some hcol)) hpc).symm
    | none =>
      have hcany : (bingoCols cd).any (isLineMarked cl) = false := by
        rw [colsAny_eq_rangeAny, ← find?_isSome_eq_any, hcol]
        rfl
      cases hrow : (List.range 5).find? (fun r => isLineMarked cl (rowLine cd r)) with
      | some r =>
        simp only [Option.isSome_some]
        have hrany : (List.range 5).any (fun r => isLineMarked cl (rowLine cd r)) = true :=
          List.any_eq_true.mpr ⟨r, List.mem_of_find?_eq_some hrow,
            by simpa using List.find?_some hrow⟩
        simp [checkBingo, hcany, hrany]
      | none =>
        have hrany : (List.range 5).any (fun r => isLineMarked cl (rowLine cd r)) = false := by
          rw [← find?_isSome_eq_any, hrow]
          rfl
        by_cases hd1 : isLineMarked cl (diagLine1 cd) = true
        · simp [checkBingo, hcany, hrany, hd1]
        · simp only [Bool.not_eq_true] at hd1
          by_cases hd2 : isLineMarked cl (diagLine2 cd) = true
          · simp [checkBingo, hcany, hrany, hd1, hd2]
          · simp only [Bool.not_eq_true] at hd2
            simp [checkBingo, hcany, hrany, hd1, hd2]
  constructor
  · rw [← main card called, Option.isSome_iff_ne_none]
  · intro rooms db roomId phone rid ph wc wp hmem
    cases hr : findRoom rooms roomId with
    | none => simp [handleClaimBingo, hr] at hmem
    | some room =>
      cases hp : room.players.find? (fun p => p.phone == phone) with
      | none => simp [handleClaimBingo, hr, hp] at hmem
      | some player =>
        by_cases hemp : player.cards.isEmpty
        · simp [handleClaimBingo, hr, hp, hemp] at hmem
        · cases hw : player.cards.find? (fun c => checkBingo c room.numbersCalled) with
          | none => simp [handleClaimBingo, hr, hp, hemp, hw] at hmem
          | some wcard =>
            simp [handleClaimBingo, hr, hp, hemp, hw, updateRoomStatus] at hmem
            obtain ⟨-, -, rfl, rfl⟩ := hmem
            have hcb : checkBingo wc room.numbersCalled = true := by
              simpa using List.find?_some hw
            rw [← main wc room.numbersCalled] at hcb
            exact Option.isSome_iff_ne_none.mp hcb

/-! ## C1: at most one winning claim per game -/

/-- C1: when two players of a room both hold winning cards and their claims
are processed one at a time, the first claim processed broadcasts the win
and resets the room (game stopped, called numbers cleared) as part of its
handling, and any claim processed after it — from any player — is answered
with exactly an `invalid_bingo` reply, so no second win is broadcast. -/
theorem first_claim_wins_second_rejected
    (rooms : Rooms) (db : List DBPlayer) (roomId phoneA : String)
    (room : Room) (sessA : PlayerSession) (cardA : FmtCard)
    (hroom : findRoom rooms roomId = some room)
    (hA : room.players.find? (fun p => p.phone == phoneA) = some sessA)
    (hwin : sessA.cards.find? (fun c => checkBingo c room.numbersCalled) = some cardA)
    (hwf : ∀ p ∈ room.players, ∀ c ∈ p.cards, WellFormedFmt c) :
    Output.toRoom roomId (SMsg.bingoWin phoneA cardA
        (extractWinningPattern cardA room.numbersCalled)) ∈
      (handleClaimBingo rooms db roomId phoneA).2.2
    ∧ findRoom (handleClaimBingo rooms db roomId phoneA).1 roomId =
        some { room with gameStarted := false, numbersCalled := [] }
    ∧ ∀ phoneB : String,
        (handleClaimBingo (handleClaimBingo rooms db roomId phoneA).1
          (handleClaimBingo rooms db roomId phoneA).2.1 roomId phoneB).2.2 =
        [Output.reply SMsg.invalidBingo] := by
  have hne : sessA.cards.isEmpty = false := by
    cases hc : sessA.cards with
    | nil => rw [hc] at hwin; simp at hwin
    | cons a l => rfl
  have happ : handleClaimBingo rooms db roomId phoneA =
      (updateRoom rooms roomId { room with gameStarted := false, numbersCalled := [] },
       mapFirst (fun u => u.phone == phoneA)
         (fun u =>
           { u with
             balance := u.balance + (calcJackpot room : Int)
             wins := u.wins + 1 }) db,
       [Output.toRoom roomId (SMsg.bingoWin phoneA cardA
          (extractWinningPattern cardA room.numbersCalled)),
        Output.toRoom roomId SMsg.gameEnd,
        updateRoomStatus (updateRoom rooms roomId
          { room with gameStarted := false, numbersCalled := [] })]) := by
    simp [handleClaimBingo, hroom, hA, hne, hwin]
  refine ⟨?_, ?_, ?_⟩
  · rw [happ]
    simp
  · rw [happ]
    exact findRoom_updateRoom hroom
  · intro phoneB
    rw [happ]
    have hroom2 : findRoom (updateRoom rooms roomId
        { room with gameStarted := false, numbersCalled := [] }) roomId =
        some { room with gameStarted := false, numbersCalled := [] } :=
      findRoom_updateRoom hroom
    cases hB : room.players.find? (fun p => p.phone == phoneB) with
    | none =>
      simp [handleClaimBingo, hroom2, hB]
    | some sessB =>
      have hmemB : sessB ∈ room.players := List.mem_of_find?_eq_some hB
      by_cases hBemp : sessB.cards.isEmpty
      · simp [handleClaimBingo, hroom2, hB, hBemp]
      · have hnowin : sessB.cards.find? (fun c => checkBingo c ([] : List Nat)) = none := by
          rw [List.find?_eq_none]
          intro c hc
          simp [checkBingo_nil_of_wf (hwf sessB hmemB c hc)]
        simp [handleClaimBingo, hroom2, hB, hBemp, hnowin]

/-! ## C4: the called-numbers sequence -/

/-- Invariant of one running game: the called numbers together with the
remaining draw pool are duplicate-free and lie in `[1, 75]`. -/
def PoolInv (st : Room × List Nat) : Prop :=
  (st.1.numbersCalled ++ st.2).Nodup ∧ ∀ n ∈ st.1.numbersCalled ++ st.2, 1 ≤ n ∧ n ≤ 75

theorem gameTick_poolInv {roomId : String} {room : Room} {available : List Nat}
    (rand : Nat) (h : PoolInv (room, available)) :
    PoolInv ((gameTick roomId room available rand).1,
      (gameTick roomId room available rand).2.1) := by
  unfold gameTick
  by_cases hg : room.gameStarted
  · simp only [hg, Bool.not_true, Bool.false_eq_true, if_false]
    by_cases hterm : available.isEmpty || room.players.isEmpty
    · simpa [hterm, PoolInv] using h
    · simp only [hterm, Bool.false_eq_true, if_false]
      cases hs : spliceAt available (rand % available.length) with
      | none => exact h
      | some p =>
        obtain ⟨num, rest⟩ := p
        have hperm : available.Perm (num :: rest) := spliceAt_perm hs
        have hp2 : (room.numbersCalled ++ available).Perm
            ((room.numbersCalled ++ [num]) ++ rest) := by
          rw [List.append_assoc]
          exact List.Perm.append_left room.numbersCalled hperm
        refine ⟨hp2.nodup_iff.mp h.1, ?_⟩
        intro n hn
        exact h.2 n (hp2.mem_iff.mpr hn)
  · simpa [hg, PoolInv] using h

theorem runTicks_poolInv {roomId : String} {st : Room × List Nat} {rands : List Nat}
    (h : PoolInv st) : PoolInv (runTicks roomId st rands) := by
  induction rands generalizing st with
  | nil => simpa [runTicks] using h
  | cons r rs ih =>
    rw [runTicks]
    exact ih (gameTick_poolInv r h)

theorem startGame_poolInv {room : Room} (h : room.gameStarted = false) :
    PoolInv (startGame room) := by
  unfold startGame PoolInv
  simp only [h, Bool.false_eq_true, if_false]
  constructor
  · simp only [List.nil_append]
    exact (List.nodup_range 75).map (fun a b hab => by omega)
  · intro n hn
    simp only [List.nil_append, List.mem_map, List.mem_range] at hn
    obtain ⟨i, hi, rfl⟩ := hn
    omega

/-- C4: throughout one game (however many interval firings happen, with
whatever random draws), the called-numbers sequence holds only integers in
`[1, 75]`, never holds an integer twice, and it grows only while the game
interval is active (`gameStarted` true): a tick of an inactive room changes
nothing. -/
theorem called_numbers_range_nodup (roomId : String) (room : Room)
    (h : room.gameStarted = false) (rands : List Nat) :
    ((runTicks roomId (startGame room) rands).1.numbersCalled.Nodup
      ∧ ∀ n ∈ (runTicks roomId (startGame room) rands).1.numbersCalled,
          1 ≤ n ∧ n ≤ 75)
    ∧ ∀ (r : Room) (a : List Nat) (i : Nat), r.gameStarted = false →
        gameTick roomId r a i = (r, a, []) := by
  have hinv : PoolInv (runTicks roomId (startGame room) rands) :=
    runTicks_poolInv (startGame_poolInv h)
  refine ⟨⟨hinv.1.of_append_left, ?_⟩, ?_⟩
  · intro n hn
    exact hinv.2 n (List.mem_append_left _ hn)
  · intro r a i hr
    simp [gameTick, hr]

/-! ## C7: the jackpot -/

/-- C7: on a successful bingo claim the winner's stored balance is credited
with exactly `calcJackpot` of the room, which is
`⌊players × cost × 0.9⌋ = players * cost * 9 / 10`; for two connected
players and cost 10 that jackpot is 18. -/
theorem jackpot_credit (rooms : Rooms) (db : List DBPlayer) (roomId phone : String)
    (room : Room) (sess : PlayerSession) (wc : FmtCard) (user : DBPlayer)
    (hroom : findRoom rooms roomId = some room)
    (hsess : room.players.find? (fun p => p.phone == phone) = some sess)
    (hwin : sess.cards.find? (fun c => checkBingo c room.numbersCalled) = some wc)
    (huser : db.find? (fun u => u.phone == phone) = some user) :
    (handleClaimBingo rooms db roomId phone).2.1.find? (fun u => u.phone == phone) =
      some
        { user with
          balance := user.balance + (calcJackpot room : Int)
          wins := user.wins + 1 }
    ∧ calcJackpot room = room.players.length * room.cost * 9 / 10
    ∧ ∀ rm : Room, rm.players.length = 2 → rm.cost = 10 → calcJackpot rm = 18 := by
  have hne : sess.cards.isEmpty = false := by
    cases hc : sess.cards with
    | nil => rw [hc] at hwin; simp at hwin
    | cons a l => rfl
  refine ⟨?_, rfl, ?_⟩
  · have hdb : (handleClaimBingo rooms db roomId phone).2.1 =
        mapFirst (fun u => u.phone == phone)
          (fun u =>
            { u with
              balance := u.balance + (calcJackpot room : Int)
              wins := u.wins + 1 }) db := by
      simp [handleClaimBingo, hroom, hsess, hne, hwin]
    rw [hdb]
    refine find?_mapFirst_self huser ?_
    simpa using List.find?_some huser
  · intro rm h1 h2
    simp [calcJackpot, h1, h2]

/-! ## C8: game-end behaviour on each termination path -/

/-- C8 (amended): the two game-end paths reset different parts of the room.
When the game interval fires with an empty draw pool or an empty player
roster, it stops the game, clears every card's holder and notifies the
room of game end — but leaves the called-numbers sequence in place (it is
cleared only by the next `startGame`).  When the game ends through a
successful bingo claim, the handler stops the game, clears the
called-numbers sequence and notifies the room of game end — but does not
touch the card holders. -/
theorem game_end_reset_paths (roomId : String) (room : Room) (available : List Nat)
    (rand : Nat) (hg : room.gameStarted = true)
    (hterm : (available.isEmpty || room.players.isEmpty) = true) :
    gameTick roomId room available rand =
      ({ room with
          gameStarted := false
          cards := room.cards.map (fun c => { c with takenBy := none }) },
        available, [Output.toRoom roomId SMsg.gameEnd])
    ∧ ∀ (rooms : Rooms) (db : List DBPlayer) (phone : String)
        (sess : PlayerSession) (wc : FmtCard),
        findRoom rooms roomId = some room →
        room.players.find? (fun p => p.phone == phone) = some sess →
        sess.cards.find? (fun c => checkBingo c room.numbersCalled) = some wc →
        findRoom (handleClaimBingo rooms db roomId phone).1 roomId =
            some { room with gameStarted := false, numbersCalled := [] }
          ∧ Output.toRoom roomId SMsg.gameEnd ∈
              (handleClaimBingo rooms db roomId phone).2.2 := by
  constructor
  · simp [gameTick, hg, hterm]
  · intro rooms db phone sess wc hroom hsess hwin
    have hne : sess.cards.isEmpty = false := by
      cases hc : sess.cards with
      | nil => rw [hc] at hwin; simp at hwin
      | cons a l => rfl
    have happ1 : (handleClaimBingo rooms db roomId phone).1 =
        updateRoom rooms roomId { room with gameStarted := false, numbersCalled := [] } := by
      simp [handleClaimBingo, hroom, hsess, hne, hwin]
    have happ2 : Output.toRoom roomId SMsg.gameEnd ∈
        (handleClaimBingo rooms db roomId phone).2.2 := by
      simp [handleClaimBingo, hroom, hsess, hne, hwin]
    exact ⟨happ1 ▸ findRoom_updateRoom hroom, happ2⟩

/-- C8 counterexample: the claim says every game end clears every card's
holder.  In the concrete two-player room `demoRoom` the pool card with id 1
is held by `"p"`; player `"A"` makes a winning claim, the game ends
(`game_end` is broadcast, the game is stopped, the called numbers are
cleared) — yet the card is still held by `"p"` afterwards. -/
theorem game_end_claim_holder_not_cleared :
    Output.toRoom "r" SMsg.gameEnd ∈ (handleClaimBingo demoRooms demoDb "r" "A").2.2
    ∧ findRoom (handleClaimBingo demoRooms demoDb "r" "A").1 "r" =
        some { demoRoom with gameStarted := false, numbersCalled := [] }
    ∧ (findRoom (handleClaimBingo demoRooms demoDb "r" "A").1 "r").map Room.cards =
        some [{ id := 1, data := sampleData, takenBy := some "p" }] := by
  decide

/-! ## C6: the start-game debit -/

/-- The room as `start_game` leaves it apart from flags: only
`playerCards[phone]` is (re)assigned to the player's held cards. -/
def withPlayerCards (room : Room) (phone : String) : Room :=
  { room with
    playerCards := setAssoc room.playerCards phone
      (room.cards.filter (fun c => c.takenBy == some phone)) }

/-- C6: a start-game request from a player who holds at least one card in
the room and has a stored balance record: with sufficient balance, exactly
the room cost is debited (the `balance_update` notification of the debit is
the first message sent, before anything countdown-related) and, if the room
is idle, the countdown is started; with insufficient balance the request is
answered with an explicit error and absolutely nothing changes — no debit,
no countdown, no room state change. -/
theorem start_game_debit (rooms : Rooms) (db : List DBPlayer) (wsCards : List FmtCard)
    (roomId phone : String) (room : Room) (user : DBPlayer)
    (hroom : findRoom rooms roomId = some room)
    (hcards : (room.cards.filter (fun c => c.takenBy == some phone)).isEmpty = false)
    (huser : db.find? (fun u => u.phone == phone) = some user) :
    ((room.cost : Int) ≤ user.balance →
      (handleStartGame rooms db wsCards roomId phone).2.1.find?
          (fun u => u.phone == phone) =
        some { user with balance := user.balance - room.cost }
      ∧ (∃ rest, (handleStartGame rooms db wsCards roomId phone).2.2.2 =
          Output.reply (SMsg.balanceUpdate (user.balance - room.cost)) :: rest)
      ∧ (room.gameStarted = false → room.countdown = false →
          (findRoom (handleStartGame rooms db wsCards roomId phone).1 roomId).map
            Room.countdown = some true))
    ∧ (user.balance < room.cost →
      handleStartGame rooms db wsCards roomId phone =
        (rooms, db, wsCards,
          [Output.reply (SMsg.errorMsg "Insufficient balance to start game")])) := by
  constructor
  · intro hbal
    have hdb2 : ∀ res : Rooms × List DBPlayer × List FmtCard × List Output,
        res.2.1 = mapFirst (fun u => u.phone == phone)
          (fun u => { u with balance := u.balance - room.cost }) db →
        res.2.1.find? (fun u => u.phone == phone) =
          some { user with balance := user.balance - room.cost } := by
      intro res hres
      rw [hres]
      refine find?_mapFirst_self huser ?_
      simpa using List.find?_some huser
    by_cases hb : (!room.gameStarted && !room.countdown) = true
    · refine ⟨hdb2 _ ?_, ?_, ?_⟩
      · simp [handleStartGame, hroom, hcards, huser, hbal, hb]
      · have hout : (handleStartGame rooms db wsCards roomId phone).2.2.2 =
            Output.reply (SMsg.balanceUpdate (user.balance - room.cost)) ::
              (Output.reply (SMsg.showCards "game" roomId
                  ((room.cards.filter (fun c => c.takenBy == some phone)).map
                    (fun c => formatCardForClient c.data))) ::
                (startRoomCountdown (updateRoom rooms roomId
                  (withPlayerCards room phone)) roomId).2) := by
          simp [handleStartGame, hroom, hcards, huser, hbal, hb, withPlayerCards]
        exact ⟨_, hout⟩
      · intro hgs hcd
        have hres : (handleStartGame rooms db wsCards roomId phone).1 =
            (startRoomCountdown (updateRoom rooms roomId
              (withPlayerCards room phone)) roomId).1 := by
          simp [handleStartGame, hroom, hcards, huser, hbal, hb, withPlayerCards]
        rw [hres]
        have hfr2 : findRoom (updateRoom rooms roomId (withPlayerCards room phone)) roomId =
            some (withPlayerCards room phone) :=
          findRoom_updateRoom hroom
        have hcd2 : (withPlayerCards room phone).countdown = false := hcd
        rw [startRoomCountdown, hfr2]
        simp only [hcd2, Bool.false_eq_true, if_false]
        rw [findRoom_updateRoom hfr2]
        rfl
    · refine ⟨hdb2 _ ?_, ?_, ?_⟩
      · simp [handleStartGame, hroom, hcards, huser, hbal, hb]
      · have hout : (handleStartGame rooms db wsCards roomId phone).2.2.2 =
            Output.reply (SMsg.balanceUpdate (user.balance - room.cost)) ::
              [Output.reply (SMsg.showCards "game" roomId
                ((room.cards.filter (fun c => c.takenBy == some phone)).map
                  (fun c => formatCardForClient c.data)))] := by
          simp [handleStartGame, hroom, hcards, huser, hbal, hb]
        exact ⟨_, hout⟩
      · intro hgs hcd
        exfalso
        rw [hgs, hcd] at hb
        simp at hb
  · intro hlt
    have hnot : ¬ (room.cost : Int) ≤ user.balance := by
      rw [not_le]
      exact hlt
    simp [handleStartGame, hroom, hcards, huser, hnot]

/-! ## C9: second start request while a countdown runs -/

/-- C9 (amended): while a room's countdown is already running,
`startRoomCountdown` itself is a guarded no-op (no second countdown timer
is ever created), and a further start-game request leaves the room's
countdown flag, game flag, card pool, roster and called numbers unchanged —
but it is NOT a complete no-op: the handler still debits the requesting
player's balance again when it is sufficient (see the counterexample). -/
theorem second_start_no_second_countdown (rooms : Rooms) (roomId : String) (room : Room)
    (hroom : findRoom rooms roomId = some room)
    (hcd : room.countdown = true) :
    startRoomCountdown rooms roomId = (rooms, [])
    ∧ ∀ (db : List DBPlayer) (wsCards : List FmtCard) (phone : String),
        ∃ rm, findRoom (handleStartGame rooms db wsCards roomId phone).1 roomId = some rm
          ∧ rm.countdown = true ∧ rm.gameStarted = room.gameStarted
          ∧ rm.cards = room.cards ∧ rm.players = room.players
          ∧ rm.numbersCalled = room.numbersCalled := by
  constructor
  · simp [startRoomCountdown, hroom, hcd]
  · intro db wsCards phone
    by_cases hcards : (room.cards.filter (fun c => c.takenBy == some phone)).isEmpty
    · refine ⟨room, ?_, hcd, rfl, rfl, rfl, rfl⟩
      have hres : (handleStartGame rooms db wsCards roomId phone).1 = rooms := by
        simp [handleStartGame, hroom, hcards]
      rw [hres]
      exact hroom
    · have hguard : (!room.gameStarted && !room.countdown) = false := by
        rw [hcd]
        simp
      cases huser : db.find? (fun u => u.phone == phone) with
      | none =>
        refine ⟨withPlayerCards room phone, ?_, hcd, rfl, rfl, rfl, rfl⟩
        have hres : (handleStartGame rooms db wsCards roomId phone).1 =
            updateRoom rooms roomId (withPlayerCards room phone) := by
          simp [handleStartGame, hroom, hcards, huser, hguard, withPlayerCards]
        rw [hres]
        exact findRoom_updateRoom hroom
      | some user =>
        by_cases hbal : (room.cost : Int) ≤ user.balance
        · refine ⟨withPlayerCards room phone, ?_, hcd, rfl, rfl, rfl, rfl⟩
          have hres : (handleStartGame rooms db wsCards roomId phone).1 =
              updateRoom rooms roomId (withPlayerCards room phone) := by
            simp [handleStartGame, hroom, hcards, huser, hbal, hguard, withPlayerCards]
          rw [hres]
          exact findRoom_updateRoom hroom
        · refine ⟨room, ?_, hcd, rfl, rfl, rfl, rfl⟩
          have hres : (handleStartGame rooms db wsCards roomId phone).1 = rooms := by
            simp [handleStartGame, hroom, hcards, huser, hbal]
          rw [hres]
          exact hroom

/-- C9 counterexample: the claim says a second start-game request during a
running countdown leaves all state, including balances, unchanged.  In
`demoCountdownRooms` the countdown is running (`countdown = true`) and
player `"p"` holds a card and has balance 100 in a cost-10 room — yet a
start-game request debits the balance to 90. -/
theorem second_start_debits_again :
    demoCountdownRoom.countdown = true
    ∧ (handleStartGame demoCountdownRooms demoDbP [] "r" "p").2.1 =
        [{ phone := "p", balance := 90, wins := 0 }] := by
  decide

/-! ## C2: the select-card contract -/

/-- The room as a successful `select_card` leaves it: the first pool card
with the requested id now held by the requester, and the requester's
`playerCards` entry extended with it. -/
def selectedRoom (room : Room) (cardId : Nat) (phone : String) (card : Card) : Room :=
  { room with
    cards := mapFirst (fun c => c.id == cardId)
      (fun c => { c with takenBy := some phone }) room.cards
    playerCards := pushPlayerCard room.playerCards phone { card with takenBy := some phone } }

/-- Reading cell `r` of the column sliced out of the flat data at offset
`a` equals normalising the flat cell `a + r`. -/
theorem slice_cell_eq (dt : List CellVal) (a r : Nat) (hr : r < 5)
    (h : a + r < dt.length) :
    (((dt.drop a).take 5).map sliceToNums).getD r 0 =
      sliceToNums (dt.getD (a + r) CellVal.free) := by
  have hlen : r < ((dt.drop a).take 5).length := by
    simp only [List.length_take, List.length_drop]
    omega
  have hlen2 : r < (((dt.drop a).take 5).map sliceToNums).length := by
    simpa using hlen
  rw [List.getD_eq_getElem _ _ hlen2, List.getElem_map, List.getElem_take,
    List.getElem_drop, List.getD_eq_getElem _ _ h]

/-- C2 (amended): with the room present, a select-card request succeeds
exactly when the card exists, is unheld or already held by the requester,
and the requester holds fewer than 4 cards; on success the card's holder
becomes the requester and the full grid — five labeled columns of five
values each, every cell normalised by `sliceToNums` so the free cell
becomes 0 — is formatted and stored for the player; a missing card gets the
not-found rejection, a card held by another player the already-taken
rejection with all state (including the holder) unchanged, and the 4-card
cap the limit rejection.  A missing ROOM, however, is a silent no-op: the
source `break`s without sending any rejection (see the counterexample). -/
theorem select_card_contract (rooms : Rooms) (wsCards : List FmtCard)
    (roomId : String) (cardId : Nat) (phone : String) (room : Room)
    (hroom : findRoom rooms roomId = some room) :
    (room.cards.find? (fun c => c.id == cardId) = none →
      handleSelectCard rooms wsCards roomId cardId phone =
        (rooms, wsCards, [Output.reply (SMsg.cardRejected "Card not found")]))
    ∧ (∀ card q, room.cards.find? (fun c => c.id == cardId) = some card →
        card.takenBy = some q → q ≠ phone →
        handleSelectCard rooms wsCards roomId cardId phone =
          (rooms, wsCards, [Output.reply (SMsg.cardRejected "Already taken")]))
    ∧ (∀ card, room.cards.find? (fun c => c.id == cardId) = some card →
        (card.takenBy = none ∨ card.takenBy = some phone) →
        4 ≤ countHeld room phone →
        handleSelectCard rooms wsCards roomId cardId phone =
          (rooms, wsCards, [Output.reply (SMsg.cardRejected "Max 4 cards reached")]))
    ∧ (∀ card, room.cards.find? (fun c => c.id == cardId) = some card →
        (card.takenBy = none ∨ card.takenBy = some phone) →
        countHeld room phone < 4 →
        (∃ room2, (handleSelectCard rooms wsCards roomId cardId phone).1 =
            updateRoom rooms roomId room2
          ∧ room2.cards.find? (fun c => c.id == cardId) =
              some { card with takenBy := some phone })
        ∧ (handleSelectCard rooms wsCards roomId cardId phone).2.1 =
            wsCards ++ [formatCardForClient card.data]
        ∧ (handleSelectCard rooms wsCards roomId cardId phone).2.2.head? =
            some (Output.reply (SMsg.cardSelected roomId cardId phone)))
    ∧ (∀ dt : List CellVal, dt.length = 25 →
        ((formatCardForClient dt).B.length = 5 ∧ (formatCardForClient dt).I.length = 5 ∧
         (formatCardForClient dt).N.length = 5 ∧ (formatCardForClient dt).G.length = 5 ∧
         (formatCardForClient dt).O.length = 5)
        ∧ (∀ r < 5,
            (formatCardForClient dt).B.getD r 0 = sliceToNums (dt.getD r CellVal.free) ∧
            (formatCardForClient dt).I.getD r 0 = sliceToNums (dt.getD (5 + r) CellVal.free) ∧
            (formatCardForClient dt).N.getD r 0 = sliceToNums (dt.getD (10 + r) CellVal.free) ∧
            (formatCardForClient dt).G.getD r 0 = sliceToNums (dt.getD (15 + r) CellVal.free) ∧
            (formatCardForClient dt).O.getD r 0 = sliceToNums (dt.getD (20 + r) CellVal.free))
        ∧ sliceToNums CellVal.free = 0) := by
  refine ⟨?_, ?_, ?_, ?_, ?_⟩
  · intro hfind
    simp [handleSelectCard, hroom, hfind]
  · intro card q hfind htaken hq
    have hcond : (card.takenBy != none && card.takenBy != some phone) = true := by
      rw [htaken]
      simp
      intro h
      exact hq h
    simp [handleSelectCard, hroom, hfind, hcond]
  · intro card hfind hfree hcap
    have hcond : (card.takenBy != none && card.takenBy != some phone) = false := by
      rcases hfree with h | h <;> rw [h] <;> simp
    simp [handleSelectCard, hroom, hfind, hcond, hcap]
  · intro card hfind hfree hcap
    have hcond : (card.takenBy != none && card.takenBy != some phone) = false := by
      rcases hfree with h | h <;> rw [h] <;> simp
    have hncap : ¬ 4 ≤ countHeld room phone := by omega
    refine ⟨⟨selectedRoom room cardId phone card, ?_, ?_⟩, ?_, ?_⟩
    · simp [handleSelectCard, hroom, hfind, hcond, hncap, selectedRoom]
    · show (mapFirst (fun c => c.id == cardId)
          (fun c => { c with takenBy := some phone }) room.cards).find?
          (fun c => c.id == cardId) = some { card with takenBy := some phone }
      refine find?_mapFirst_self hfind ?_
      simpa using List.find?_some hfind
    · simp [handleSelectCard, hroom, hfind, hcond, hncap]
    · simp [handleSelectCard, hroom, hfind, hcond, hncap]
  · intro dt hdt
    refine ⟨?_, ?_, rfl⟩
    · simp [formatCardForClient, List.length_take, List.length_drop, hdt]
    · intro r hr
      have hB := slice_cell_eq dt 0 r hr (by omega)
      have hI := slice_cell_eq dt 5 r hr (by omega)
      have hN := slice_cell_eq dt 10 r hr (by omega)
      have hG := slice_cell_eq dt 15 r hr (by omega)
      have hO := slice_cell_eq dt 20 r hr (by omega)
      rw [List.drop_zero] at hB
      refine ⟨?_, ?_, ?_, ?_, ?_⟩
      · rw [show (formatCardForClient dt).B = (dt.take 5).map sliceToNums from rfl]
        rw [show (0 : Nat) + r = r from by omega] at hB
        exact hB
      · exact hI
      · exact hN
      · exact hG
      · exact hO

/-- C2 counterexample: the claim says a select-card call "fails with a
not-found rejection if the card or room is absent".  With no such room the
handler silently `break`s: no rejection (no message at all) is sent and
nothing changes. -/
theorem select_card_missing_room_silent :
    handleSelectCard demoSelRooms [] "missing_room" 1 "p" = (demoSelRooms, [], []) := by
  decide

/-! ## C3: the 4-card cap is an invariant -/

theorem count_filter_split (p : Card → Bool) (l1 l2 : List Card) (x : Card) :
    ((l1 ++ x :: l2).filter p).length =
      (l1.filter p).length + (if p x then 1 else 0) + (l2.filter p).length := by
  rw [List.filter_append, List.length_append, List.filter_cons]
  by_cases hp : p x
  · simp [hp]
    omega
  · simp [hp]

/-- After a successful card assignment every per-player held count stays at
most 4: the assigned player's count grows by at most one from strictly
below the cap, and other players' counts cannot grow. -/
theorem countHeld_update_le {cards : List Card} {cardId : Nat} {phone : String} {card : Card}
    (hfind : cards.find? (fun c => c.id == cardId) = some card)
    (hcap : (cards.filter (fun c => c.takenBy == some phone)).length < 4)
    (hall : ∀ q : String, (cards.filter (fun c => c.takenBy == some q)).length ≤ 4) :
    ∀ q : String,
      ((mapFirst (fun c => c.id == cardId) (fun c => { c with takenBy := some phone })
        cards).filter (fun c => c.takenBy == some q)).length ≤ 4 := by
  intro q
  obtain ⟨l1, l2, hl, -, hm⟩ :=
    mapFirst_decomp (f := fun c => { c with takenBy := some phone }) hfind
  rw [hm, count_filter_split]
  by_cases hq : q = phone
  · subst hq
    have hold := hcap
    rw [hl, count_filter_split] at hold
    rw [if_pos (show (({ card with takenBy := some q } : Card).takenBy == some q) = true
      from by simp)]
    omega
  · have hold := hall q
    rw [hl, count_filter_split] at hold
    rw [if_neg (show ¬ (({ card with takenBy := some phone } : Card).takenBy == some q) = true
      from by
        simp
        exact fun h => hq h.symm)]
    omega

theorem applyOp_cap {rooms : Rooms} (op : RoomOp)
    (h : ∀ e ∈ rooms, ∀ q : String, countHeld e.2 q ≤ 4) :
    ∀ e ∈ applyOp rooms op, ∀ q : String, countHeld e.2 q ≤ 4 := by
  cases op with
  | select roomId cardId phone =>
    show ∀ e ∈ (handleSelectCard rooms [] roomId cardId phone).1, _
    cases hroom : findRoom rooms roomId with
    | none =>
      intro e he
      have hres : (handleSelectCard rooms [] roomId cardId phone).1 = rooms := by
        simp [handleSelectCard, hroom]
      rw [hres] at he
      exact h e he
    | some room =>
      cases hfind : room.cards.find? (fun c => c.id == cardId) with
      | none =>
        intro e he
        have hres : (handleSelectCard rooms [] roomId cardId phone).1 = rooms := by
          simp [handleSelectCard, hroom, hfind]
        rw [hres] at he
        exact h e he
      | some card =>
        by_cases hcond : (card.takenBy != none && card.takenBy != some phone) = true
        · intro e he
          have hres : (handleSelectCard rooms [] roomId cardId phone).1 = rooms := by
            simp [handleSelectCard, hroom, hfind, hcond]
          rw [hres] at he
          exact h e he
        · by_cases hcap : 4 ≤ countHeld room phone
          · intro e he
            have hres : (handleSelectCard rooms [] roomId cardId phone).1 = rooms := by
              simp [handleSelectCard, hroom, hfind, hcond, hcap]
            rw [hres] at he
            exact h e he
          · intro e he
            have hres : (handleSelectCard rooms [] roomId cardId phone).1 =
                updateRoom rooms roomId (selectedRoom room cardId phone card) := by
              simp [handleSelectCard, hroom, hfind, hcond, hcap, selectedRoom]
            rw [hres] at he
            rcases mem_updateRoom he with hmem | heq
            · exact h e hmem
            · intro q
              rw [heq]
              obtain ⟨e0, he0, he0r⟩ := findRoom_mem hroom
              have hall : ∀ q2 : String, countHeld room q2 ≤ 4 := by
                intro q2
                have := h e0 he0 q2
                rwa [he0r] at this
              have hcap2 : countHeld room phone < 4 := by omega
              exact countHeld_update_le hfind hcap2 hall q
  | resetHolders roomId =>
    intro e he
    simp only [applyOp] at he
    cases hroom : findRoom rooms roomId with
    | none =>
      rw [hroom] at he
      exact h e he
    | some room =>
      rw [hroom] at he
      rcases mem_updateRoom he with hmem | heq
      · exact h e hmem
      · intro q
        rw [heq]
        simp only [countHeld, List.filter_map]
        have hnil : List.filter ((fun c : Card => c.takenBy == some q) ∘
            fun c : Card => { id := c.id, data := c.data, takenBy := none }) room.cards
            = [] := by
          rw [List.filter_eq_nil_iff]
          intro a ha
          simp [Function.comp]
        rw [hnil]
        simp

/-- C3: starting from any rooms state in which no player holds more than 4
cards in any room, after any sequence of select-card and holder-reset
operations no player ever holds more than 4 cards in any room. -/
theorem four_card_cap (rooms0 : Rooms) (ops : List RoomOp)
    (h0 : ∀ e ∈ rooms0, ∀ q : String, countHeld e.2 q ≤ 4) :
    ∀ e ∈ ops.foldl applyOp rooms0, ∀ q : String, countHeld e.2 q ≤ 4 := by
  induction ops generalizing rooms0 with
  | nil => simpa using h0
  | cons op rest ih =>
    rw [List.foldl_cons]
    exact ih _ (applyOp_cap op h0)

/-! ## Witnesses: each hypothesis-bearing claim theorem applied at a
concrete input -/

theorem first_claim_wins_second_rejected_witness :
    (findRoom demoRooms "r" = some demoRoom
      ∧ demoRoom.players.find? (fun p => p.phone == "A") =
          some { phone := "A", cards := [sampleCard] }
      ∧ List.find? (fun c => checkBingo c demoRoom.numbersCalled) [sampleCard] =
          some sampleCard
      ∧ ∀ p ∈ demoRoom.players, ∀ c ∈ p.cards, WellFormedFmt c)
    ∧ (handleClaimBingo (handleClaimBingo demoRooms demoDb "r" "A").1
        (handleClaimBingo demoRooms demoDb "r" "A").2.1 "r" "B").2.2 =
        [Output.reply SMsg.invalidBingo] :=
  ⟨⟨by decide, by decide, by decide, by decide⟩,
   (first_claim_wins_second_rejected demoRooms demoDb "r" "A" demoRoom
      { phone := "A", cards := [sampleCard] } sampleCard
      (by decide) (by decide) (by decide) (by decide)).2.2 "B"⟩

theorem select_card_contract_witness :
    findRoom demoSelRooms "r" = some demoSelRoom
    ∧ (handleSelectCard demoSelRooms [] "r" 1 "p").2.1 = [formatCardForClient sampleData]
    ∧ handleSelectCard demoSelRooms [] "r" 3 "p" =
        (demoSelRooms, [], [Output.reply (SMsg.cardRejected "Card not found")]) :=
  ⟨by decide,
   by
     have h := select_card_contract demoSelRooms [] "r" 1 "p" demoSelRoom (by decide)
     have hs := (h.2.2.2.1 { id := 1, data := sampleData, takenBy := none }
       (by decide) (Or.inl rfl) (by decide)).2.1
     simpa using hs,
   by
     have h := select_card_contract demoSelRooms [] "r" 3 "p" demoSelRoom (by decide)
     exact h.1 (by decide)⟩

theorem four_card_cap_witness :
    (∀ e ∈ demoSelRooms, ∀ q : String, countHeld e.2 q ≤ 4)
    ∧ ∀ e ∈ ([RoomOp.select "r" 1 "p", RoomOp.select "r" 2 "p"].foldl applyOp demoSelRooms),
        ∀ q : String, countHeld e.2 q ≤ 4 := by
  have h0 : ∀ e ∈ demoSelRooms, ∀ q : String, countHeld e.2 q ≤ 4 := by
    intro e he q
    have hle := List.length_filter_le (fun c : Card => c.takenBy == some q) e.2.cards
    have hlen : e.2.cards.length ≤ 4 := by
      simp [demoSelRooms] at he
      rw [he]
      decide
    exact le_trans hle hlen
  exact ⟨h0, four_card_cap demoSelRooms [RoomOp.select "r" 1 "p", RoomOp.select "r" 2 "p"] h0⟩

theorem called_numbers_range_nodup_witness :
    demoSelRoom.gameStarted = false
    ∧ (((runTicks "r" (startGame demoSelRoom) [0, 1, 2]).1.numbersCalled.Nodup
        ∧ ∀ n ∈ (runTicks "r" (startGame demoSelRoom) [0, 1, 2]).1.numbersCalled,
            1 ≤ n ∧ n ≤ 75)
      ∧ ∀ (r : Room) (a : List Nat) (i : Nat), r.gameStarted = false →
          gameTick "r" r a i = (r, a, [])) :=
  ⟨by decide, called_numbers_range_nodup "r" demoSelRoom (by decide) [0, 1, 2]⟩

theorem checkBingo_column_exact_witness :
    ((0 : Nat) < 5 ∧ WellFormedFmt sampleCard)
    ∧ checkBingo sampleCard [1, 2, 3, 4, 5] = true :=
  ⟨⟨by decide, by decide⟩,
   (checkBingo_column_exact sampleCard 0 (by decide) (by decide)).1 [1, 2, 3, 4, 5]
     (by decide)⟩

theorem start_game_debit_witness :
    (findRoom demoIdleRooms "r" = some demoIdleRoom
      ∧ (demoIdleRoom.cards.filter (fun c => c.takenBy == some "p")).isEmpty = false
      ∧ demoDbP.find? (fun u => u.phone == "p") =
          some { phone := "p", balance := 100, wins := 0 })
    ∧ (handleStartGame demoIdleRooms demoDbP [] "r" "p").2.1.find?
        (fun u => u.phone == "p") = some { phone := "p", balance := 90, wins := 0 } :=
  ⟨⟨by decide, by decide, by decide⟩,
   by
     have h := (start_game_debit demoIdleRooms demoDbP [] "r" "p" demoIdleRoom
       { phone := "p", balance := 100, wins := 0 } (by decide) (by decide) (by decide)).1
       (by decide)
     rw [h.1]
     decide⟩

theorem jackpot_credit_witness :
    (findRoom demoRooms "r" = some demoRoom
      ∧ demoRoom.players.find? (fun p => p.phone == "A") =
          some { phone := "A", cards := [sampleCard] }
      ∧ List.find? (fun c => checkBingo c demoRoom.numbersCalled) [sampleCard] =
          some sampleCard
      ∧ demoDb.find? (fun u => u.phone == "A") =
          some { phone := "A", balance := 100, wins := 0 })
    ∧ (handleClaimBingo demoRooms demoDb "r" "A").2.1.find? (fun u => u.phone == "A") =
        some { phone := "A", balance := 118, wins := 1 }
    ∧ calcJackpot demoRoom = 18 :=
  ⟨⟨by decide, by decide, by decide, by decide⟩,
   by
     have h := jackpot_credit demoRooms demoDb "r" "A" demoRoom
       { phone := "A", cards := [sampleCard] } sampleCard
       { phone := "A", balance := 100, wins := 0 }
       (by decide) (by decide) (by decide) (by decide)
     refine ⟨?_, ?_⟩
     · rw [h.1]
       decide
     · exact h.2.2 demoRoom (by decide) (by decide)⟩

theorem game_end_reset_paths_witness :
    (demoRoom.gameStarted = true
      ∧ (([] : List Nat).isEmpty || demoRoom.players.isEmpty) = true)
    ∧ (gameTick "r" demoRoom [] 0).1.cards =
        [{ id := 1, data := sampleData, takenBy := none }]
    ∧ Output.toRoom "r" SMsg.gameEnd ∈ (handleClaimBingo demoRooms demoDb "r" "A").2.2 :=
  ⟨⟨by decide, by decide⟩,
   by
     have h := game_end_reset_paths "r" demoRoom [] 0 (by decide) (by decide)
     refine ⟨?_, ?_⟩
     · rw [h.1]
       decide
     · exact (h.2 demoRooms demoDb "A" { phone := "A", cards := [sampleCard] } sampleCard
         (by decide) (by decide) (by decide)).2⟩

theorem second_start_no_second_countdown_witness :
    (findRoom demoCountdownRooms "r" = some demoCountdownRoom
      ∧ demoCountdownRoom.countdown = true)
    ∧ startRoomCountdown demoCountdownRooms "r" = (demoCountdownRooms, []) :=
  ⟨⟨by decide, by decide⟩,
   (second_start_no_second_countdown demoCountdownRooms "r" demoCountdownRoom
      (by decide) (by decide)).1⟩

theorem extract_matches_checkBingo_witness :
    checkBingo sampleCard [1, 2, 3, 4, 5] = true
    ∧ extractWinningPattern sampleCard [1, 2, 3, 4, 5] ≠ none :=
  ⟨by decide,
   (extract_matches_checkBingo sampleCard [1, 2, 3, 4, 5]).1.mpr (by decide)⟩

end Bingo
